import Mathlib

set_option autoImplicit false

/-!
Verification development for the firecrawl MCP server repository.

Part 1 embeds the JavaScript runtime values and the five argument type
guards of src/index.ts (isScrapeOptions, isMapOptions, isCrawlOptions,
isBatchScrapeOptions, isStatusCheckOptions), together with the relevant
tool-schema facts.  Effects that can throw in JavaScript (the in operator,
property access) are embedded in the Except monad so that totality of the
guards is a theorem, not a modelling artifact.

Part 2 models the Request Dispatch and Resilience Engine components the
specification describes (Dispatcher retry loop, Rate Limiter, Credit
Ledger, Backoff Policy, Job Tracker); that code is not present under the
repository sources, so those definitions are modelled from the spec and
marked as such.
-/

/-- A JavaScript runtime value, as far as the type guards can observe one:
null, undefined, the primitives, arrays and plain objects.  An object is a
list of own properties; numeric payloads are embedded as integers since the
guards only ever apply typeof to them, never arithmetic. -/
inductive JSValue where
  | null
  | undefined
  | boolean (b : Bool)
  | number (n : Int)
  | string (s : String)
  | array (elems : List JSValue)
  | object (props : List (String × JSValue))

/-- The JavaScript typeof operator.  Note typeof null and typeof of an
array are both the string "object". -/
def jsTypeof : JSValue → String
  | .null => "object"
  | .undefined => "undefined"
  | .boolean _ => "boolean"
  | .number _ => "number"
  | .string _ => "string"
  | .array _ => "object"
  | .object _ => "object"

/-- Whether the value is the JavaScript null literal (the args !== null
comparison in the guards). -/
def isNullValue : JSValue → Bool
  | .null => true
  | _ => false

/-- Numeric value of a digit string, read most significant digit first. -/
def parseIndex (cs : List Char) : Nat :=
  cs.foldl (fun n c => n * 10 + (c.toNat - 48)) 0

/-- Whether a list of characters is a canonical array-index key: a
non-empty digit string without a leading zero (except "0" itself). -/
def isCanonicalIndex (cs : List Char) : Bool :=
  !cs.isEmpty && cs.all Char.isDigit && (cs == ['0'] || !(cs.headD '0' == '0'))

/-- Own property keys of a JavaScript array: its indices and "length". -/
def arrayHasKey (es : List JSValue) (key : String) : Bool :=
  key == "length" ||
    (isCanonicalIndex key.data && decide (parseIndex key.data < es.length))

/-- The JavaScript in operator.  It throws a TypeError when the right
operand is not an object (null, undefined and primitives included); on
arrays and objects it reports own-property membership. -/
def jsIn (key : String) (v : JSValue) : Except String Bool :=
  match v with
  | .object props => .ok (props.any (fun p => key == p.1))
  | .array es => .ok (arrayHasKey es key)
  | _ => .error "TypeError: cannot use in operator on a non-object"

/-- JavaScript property access.  Throws on null and undefined, yields
undefined for absent properties, and reads the first matching own property
of an object. -/
def jsGet (v : JSValue) (key : String) : Except String JSValue :=
  match v with
  | .null => .error "TypeError: cannot read properties of null"
  | .undefined => .error "TypeError: cannot read properties of undefined"
  | .object props => .ok ((props.lookup key).getD .undefined)
  | .array es =>
      .ok (if key == "length" then .number es.length
        else if isCanonicalIndex key.data then es.getD (parseIndex key.data) .undefined
        else .undefined)
  | .string s => .ok (if key == "length" then .number s.length else .undefined)
  | .boolean _ => .ok .undefined
  | .number _ => .ok .undefined

/-- Guard isScrapeOptions from src/index.ts lines 677-686: the chain
typeof args === 'object' && args !== null && 'url' in args &&
typeof args.url === 'string', with JavaScript short-circuit evaluation. -/
def isScrapeOptions (args : JSValue) : Except String Bool :=
  if jsTypeof args == "object" then
    if isNullValue args then .ok false
    else
      match jsIn "url" args with
      | .error e => .error e
      | .ok false => .ok false
      | .ok true =>
        match jsGet args "url" with
        | .error e => .error e
        | .ok u => .ok (jsTypeof u == "string")
  else .ok false

/-- Guard isMapOptions from src/index.ts lines 688-695; its body is
identical to isScrapeOptions. -/
def isMapOptions (args : JSValue) : Except String Bool :=
  if jsTypeof args == "object" then
    if isNullValue args then .ok false
    else
      match jsIn "url" args with
      | .error e => .error e
      | .ok false => .ok false
      | .ok true =>
        match jsGet args "url" with
        | .error e => .error e
        | .ok u => .ok (jsTypeof u == "string")
  else .ok false

/-- Guard isCrawlOptions from src/index.ts lines 697-704; its body is
identical to isScrapeOptions. -/
def isCrawlOptions (args : JSValue) : Except String Bool :=
  if jsTypeof args == "object" then
    if isNullValue args then .ok false
    else
      match jsIn "url" args with
      | .error e => .error e
      | .ok false => .ok false
      | .ok true =>
        match jsGet args "url" with
        | .error e => .error e
        | .ok u => .ok (jsTypeof u == "string")
  else .ok false

/-- Guard isBatchScrapeOptions from src/index.ts lines 706-714: the chain
typeof args === 'object' && args !== null && 'urls' in args &&
Array.isArray(args.urls) && args.urls.every(url => typeof url === 'string'). -/
def isBatchScrapeOptions (args : JSValue) : Except String Bool :=
  if jsTypeof args == "object" then
    if isNullValue args then .ok false
    else
      match jsIn "urls" args with
      | .error e => .error e
      | .ok false => .ok false
      | .ok true =>
        match jsGet args "urls" with
        | .error e => .error e
        | .ok u =>
          match u with
          | .array es => .ok (es.all (fun e => jsTypeof e == "string"))
          | _ => .ok false
  else .ok false

/-- Guard isStatusCheckOptions from src/index.ts lines 716-723: the chain
typeof args === 'object' && args !== null && 'id' in args &&
typeof args.id === 'string'. -/
def isStatusCheckOptions (args : JSValue) : Except String Bool :=
  if jsTypeof args == "object" then
    if isNullValue args then .ok false
    else
      match jsIn "id" args with
      | .error e => .error e
      | .ok false => .ok false
      | .ok true =>
        match jsGet args "id" with
        | .error e => .error e
        | .ok u => .ok (jsTypeof u == "string")
  else .ok false

/-- The schema facts of a tool declaration the claims mention: its name and
the list of required input fields. -/
structure ToolSchema where
  toolName : String
  requiredFields : List String

/-- SCRAPE_TOOL from src/index.ts lines 23-177: inputSchema.required is the
one-element list containing url. -/
def SCRAPE_TOOL : ToolSchema := ⟨"firecrawl_scrape", ["url"]⟩

/-- MAP_TOOL from src/index.ts lines 179-213. -/
def MAP_TOOL : ToolSchema := ⟨"firecrawl_map", ["url"]⟩

/-- CRAWL_TOOL from src/index.ts lines 215-325. -/
def CRAWL_TOOL : ToolSchema := ⟨"firecrawl_crawl", ["url"]⟩

/-- BATCH_SCRAPE_TOOL from src/index.ts lines 327-376. -/
def BATCH_SCRAPE_TOOL : ToolSchema := ⟨"firecrawl_batch_scrape", ["urls"]⟩

/-- CHECK_BATCH_STATUS_TOOL from src/index.ts lines 378-391. -/
def CHECK_BATCH_STATUS_TOOL : ToolSchema := ⟨"firecrawl_check_batch_status", ["id"]⟩

/-- Whether a value is a JavaScript string. -/
def isStringValue : JSValue → Bool
  | .string _ => true
  | _ => false

/-- The property the spec states for scrape-request validation: the value
is a non-null object whose url field holds a string. -/
def isNonNullObjectWithStringUrl (v : JSValue) : Prop :=
  ∃ props s, v = JSValue.object props ∧ props.lookup "url" = some (JSValue.string s)

/-- Modelled from the spec: the protocol layer validates every tool
invocation argument with its type guard before the request reaches the
Dispatcher; the handler wiring that performs this call is not present
under src/.  Validation of a scrape request admits the argument exactly
when its guard accepts it. -/
def validateScrapeArgs (args : JSValue) : Option JSValue :=
  match isScrapeOptions args with
  | .ok true => some args
  | _ => none

/-- Membership reported by the in operator agrees with lookup: an object
has a property exactly when lookup on its property list succeeds. -/
lemma any_eq_lookup_isSome (props : List (String × JSValue)) (key : String) :
    props.any (fun p => key == p.1) = (props.lookup key).isSome := by
  induction props with
  | nil => rfl
  | cons p rest ih =>
      cases h : key == p.1 <;> simp [List.lookup, h, ih]

/-- Normal form of the scrape guard on an object: it reports whether the
first url binding (undefined when absent) holds a string. -/
lemma scrape_shape_object (props : List (String × JSValue)) :
    isScrapeOptions (JSValue.object props)
      = .ok (isStringValue ((props.lookup "url").getD .undefined)) := by
  have hany := any_eq_lookup_isSome props "url"
  cases h : props.lookup "url" with
  | none =>
      have hf : props.any (fun p => "url" == p.1) = false := by rw [hany, h]; rfl
      simp [isScrapeOptions, jsTypeof, isNullValue, jsIn, isStringValue, hf, h]
  | some u =>
      have ht : props.any (fun p => "url" == p.1) = true := by rw [hany, h]; rfl
      cases u <;>
        simp [isScrapeOptions, jsTypeof, isNullValue, jsIn, jsGet, isStringValue, ht, h]

/-- Urls-field check of the batch guard: Array.isArray plus every-element
typeof string. -/
def batchUrlsCheck : JSValue → Bool
  | .array es => es.all (fun e => jsTypeof e == "string")
  | _ => false

/-- Normal form of the batch guard on an object: it applies the urls-field
check to the first urls binding (undefined when absent). -/
lemma batch_shape_object (props : List (String × JSValue)) :
    isBatchScrapeOptions (JSValue.object props)
      = .ok (batchUrlsCheck ((props.lookup "urls").getD .undefined)) := by
  have hany := any_eq_lookup_isSome props "urls"
  cases h : props.lookup "urls" with
  | none =>
      have hf : props.any (fun p => "urls" == p.1) = false := by rw [hany, h]; rfl
      simp [isBatchScrapeOptions, jsTypeof, isNullValue, jsIn, batchUrlsCheck, hf, h]
  | some u =>
      have ht : props.any (fun p => "urls" == p.1) = true := by rw [hany, h]; rfl
      cases u <;>
        simp [isBatchScrapeOptions, jsTypeof, isNullValue, jsIn, jsGet, batchUrlsCheck, ht, h]

/-- Normal form of the status-check guard on an object: it reports whether
the first id binding (undefined when absent) holds a string. -/
lemma status_shape_object (props : List (String × JSValue)) :
    isStatusCheckOptions (JSValue.object props)
      = .ok (isStringValue ((props.lookup "id").getD .undefined)) := by
  have hany := any_eq_lookup_isSome props "id"
  cases h : props.lookup "id" with
  | none =>
      have hf : props.any (fun p => "id" == p.1) = false := by rw [hany, h]; rfl
      simp [isStatusCheckOptions, jsTypeof, isNullValue, jsIn, isStringValue, hf, h]
  | some u =>
      have ht : props.any (fun p => "id" == p.1) = true := by rw [hany, h]; rfl
      cases u <;>
        simp [isStatusCheckOptions, jsTypeof, isNullValue, jsIn, jsGet, isStringValue, ht, h]

/-- The scrape guard accepts exactly the non-null objects whose url field
holds a string. -/
lemma scrapeGuard_iff (v : JSValue) :
    isScrapeOptions v = Except.ok true ↔ isNonNullObjectWithStringUrl v := by
  cases v with
  | object props =>
      rw [scrape_shape_object]
      cases h : props.lookup "url" with
      | none => simp [isNonNullObjectWithStringUrl, isStringValue, h]
      | some u => cases u <;> simp [isNonNullObjectWithStringUrl, isStringValue, h]
  | null =>
      rw [show isScrapeOptions JSValue.null = Except.ok false from rfl]
      simp [isNonNullObjectWithStringUrl]
  | undefined =>
      rw [show isScrapeOptions JSValue.undefined = Except.ok false from rfl]
      simp [isNonNullObjectWithStringUrl]
  | boolean b =>
      rw [show isScrapeOptions (JSValue.boolean b) = Except.ok false from rfl]
      simp [isNonNullObjectWithStringUrl]
  | number n =>
      rw [show isScrapeOptions (JSValue.number n) = Except.ok false from rfl]
      simp [isNonNullObjectWithStringUrl]
  | string s =>
      rw [show isScrapeOptions (JSValue.string s) = Except.ok false from rfl]
      simp [isNonNullObjectWithStringUrl]
  | array es =>
      rw [show isScrapeOptions (JSValue.array es) = Except.ok false from rfl]
      simp [isNonNullObjectWithStringUrl]

/-- Claim C7: the validator isScrapeOptions accepts a value exactly when it
is a non-null object whose url field holds a string; this matches the
scrape tool schema, whose sole required field is url; and the modelled
validate-before-dispatch step admits an argument exactly when the guard
accepts it. -/
theorem isScrapeOptions_spec :
    (∀ v, isScrapeOptions v = Except.ok true ↔ isNonNullObjectWithStringUrl v) ∧
    SCRAPE_TOOL.requiredFields = ["url"] ∧
    (∀ v, (validateScrapeArgs v).isSome = true ↔ isScrapeOptions v = Except.ok true) := by
  refine ⟨scrapeGuard_iff, rfl, ?_⟩
  intro v
  cases h : isScrapeOptions v with
  | error e => simp [validateScrapeArgs, h]
  | ok b => cases b <;> simp [validateScrapeArgs, h]

/-- Claim C8: the validators isScrapeOptions, isMapOptions and
isCrawlOptions return the same answer on every input, and each accepts
exactly the non-null objects with a string-valued url field, so validation
cannot distinguish scrape, map and crawl requests. -/
theorem guards_extensionally_equal :
    ∀ v, (isScrapeOptions v = isMapOptions v ∧ isMapOptions v = isCrawlOptions v) ∧
      (isMapOptions v = Except.ok true ↔ isNonNullObjectWithStringUrl v) := by
  intro v
  exact ⟨⟨rfl, rfl⟩, scrapeGuard_iff v⟩

/-- Claim C9: all five type guards are total: on every runtime value,
including null, undefined, primitives and arrays, each returns a boolean
in the Except embedding (never the error that a raw in operator or
property access could produce). -/
theorem guards_total :
    ∀ v, (isScrapeOptions v).isOk = true ∧ (isMapOptions v).isOk = true ∧
      (isCrawlOptions v).isOk = true ∧ (isBatchScrapeOptions v).isOk = true ∧
      (isStatusCheckOptions v).isOk = true := by
  intro v
  cases v with
  | object props =>
      refine ⟨?_, ?_, ?_, ?_, ?_⟩
      · rw [scrape_shape_object]; rfl
      · rw [show isMapOptions (JSValue.object props)
              = isScrapeOptions (JSValue.object props) from rfl, scrape_shape_object]; rfl
      · rw [show isCrawlOptions (JSValue.object props)
              = isScrapeOptions (JSValue.object props) from rfl, scrape_shape_object]; rfl
      · rw [batch_shape_object]; rfl
      · rw [status_shape_object]; rfl
  | null => exact ⟨rfl, rfl, rfl, rfl, rfl⟩
  | undefined => exact ⟨rfl, rfl, rfl, rfl, rfl⟩
  | boolean b => exact ⟨rfl, rfl, rfl, rfl, rfl⟩
  | number n => exact ⟨rfl, rfl, rfl, rfl, rfl⟩
  | string s => exact ⟨rfl, rfl, rfl, rfl, rfl⟩
  | array es => exact ⟨rfl, rfl, rfl, rfl, rfl⟩

/-- Claim C10: a batch-scrape argument whose urls field is the empty array
passes validation, and the guard never inspects any other field, the
optional options field included: its verdict depends only on the urls
binding. -/
theorem batchScrape_empty_urls_and_options_ignored :
    (∀ props, props.lookup "urls" = some (JSValue.array []) →
        isBatchScrapeOptions (JSValue.object props) = Except.ok true) ∧
    (∀ props1 props2, props1.lookup "urls" = props2.lookup "urls" →
        isBatchScrapeOptions (JSValue.object props1)
          = isBatchScrapeOptions (JSValue.object props2)) := by
  constructor
  · intro props h
    rw [batch_shape_object, h]
    rfl
  · intro props1 props2 h
    rw [batch_shape_object, batch_shape_object, h]

/-- Witness for claim C10 at a concrete input: an object carrying an empty
urls array and an options field passes the batch guard, and replacing the
options field does not change the verdict. -/
theorem batchScrape_empty_urls_and_options_ignored_witness :
    isBatchScrapeOptions
        (JSValue.object [("urls", JSValue.array []), ("options", JSValue.number 1)])
      = Except.ok true ∧
    isBatchScrapeOptions
        (JSValue.object [("urls", JSValue.array []), ("options", JSValue.number 1)])
      = isBatchScrapeOptions
        (JSValue.object [("urls", JSValue.array []), ("options", JSValue.string "x")]) :=
  ⟨batchScrape_empty_urls_and_options_ignored.1 _ rfl,
   batchScrape_empty_urls_and_options_ignored.2 _ _ rfl⟩

/-- Error classes of upstream failures, from the Backoff Policy contract. -/
inductive ErrorClass where
  | RateLimited
  | ServerError
  | NetworkTimeout
  | Unknown

/-- One upstream response as the Dispatcher classifies it: success carrying
reported usage, a transient failure (timeout, 429, 5xx), or a permanent
failure. -/
inductive UpstreamResponse where
  | success (usage : Nat)
  | transient (e : ErrorClass)
  | permanent

/-- Terminal outcome of one dispatched operation. -/
inductive DispatchOutcome where
  | succeeded (usage : Nat)
  | transientExhausted
  | permanentFailure
  | budgetExceeded

/-- Modelled from the spec: the Credit Ledger state, absent from src/.
A process-wide counter of consumed units with an optional budget ceiling
(unset means unlimited). -/
structure CreditLedger where
  consumed : Nat
  ceiling : Option Nat

/-- Modelled from the spec: the pre-flight budget check, absent from src/.
When a ceiling is configured, admission is refused once consumed units
reach it. -/
def budgetExhausted (L : CreditLedger) : Bool :=
  match L.ceiling with
  | some c => decide (c ≤ L.consumed)
  | none => false

/-- Modelled from the spec: recordUsage of the Credit Ledger, absent from
src/.  A counter increment with no rollback semantics. -/
def recordUsage (consumed units : Nat) : Nat := consumed + units

/-- States of the ledger counter observed after each of a sequence of
recordUsage calls, starting from an initial value. -/
def ledgerStates (init : Nat) (calls : List Nat) : List Nat :=
  List.scanl recordUsage init calls

/-- Final ledger counter after a sequence of recordUsage calls. -/
def ledgerFinal (init : Nat) (calls : List Nat) : Nat :=
  List.foldl recordUsage init calls

/-- Modelled from the spec: the Dispatcher retry loop, absent from src/.
Attempts are strictly sequential; a transient failure consumes one attempt
and retries; success and permanent failure stop the loop; an exhausted
attempt budget yields the terminal transient-exhausted outcome.  Returns
the outcome and the number of Transport Client invocations made. -/
def attemptLoop (upstream : Nat → UpstreamResponse) :
    Nat → Nat → DispatchOutcome × Nat
  | 0, _ => (.transientExhausted, 0)
  | n + 1, k =>
      match upstream k with
      | .success u => (.succeeded u, 1)
      | .permanent => (.permanentFailure, 1)
      | .transient _ =>
          let r := attemptLoop upstream n (k + 1)
          (r.1, r.2 + 1)

/-- Modelled from the spec: the Dispatcher entry point, absent from src/.
The pre-flight check against the Credit Ledger runs before any network
call; when it fails the request is rejected with BudgetExceeded, the
Transport Client is invoked zero times and the ledger is unchanged.
Otherwise the retry loop runs and usage reported by a success accumulates
into the ledger. -/
def dispatch (L : CreditLedger) (maxAttempts : Nat)
    (upstream : Nat → UpstreamResponse) :
    DispatchOutcome × Nat × CreditLedger :=
  if budgetExhausted L then (.budgetExceeded, 0, L)
  else
    let r := attemptLoop upstream maxAttempts 0
    match r.1 with
    | .succeeded u => (r.1, r.2, ⟨recordUsage L.consumed u, L.ceiling⟩)
    | _ => (r.1, r.2, L)

lemma attemptLoop_always_transient (upstream : Nat → UpstreamResponse)
    (htr : ∀ k, ∃ e, upstream k = .transient e) :
    ∀ n k, attemptLoop upstream n k = (.transientExhausted, n) := by
  intro n
  induction n with
  | zero => intro k; rfl
  | succ m ih =>
      intro k
      obtain ⟨e, he⟩ := htr k
      simp [attemptLoop, he, ih]

/-- Claim C1: with max attempts configured to 3 and an upstream that always
returns a transient failure, the Dispatcher performs exactly 3 Transport
Client attempts and reports the TransientFailure-exhausted terminal
outcome; it never issues a 4th attempt and never reports success, and the
ledger is unchanged. -/
theorem dispatch_transient_exhausts_attempts (L : CreditLedger)
    (upstream : Nat → UpstreamResponse)
    (htr : ∀ k, ∃ e, upstream k = .transient e)
    (hb : budgetExhausted L = false) :
    dispatch L 3 upstream = (.transientExhausted, 3, L) := by
  simp [dispatch, hb, attemptLoop_always_transient upstream htr]

/-- Witness for claim C1 at a concrete input: a fresh unlimited ledger and
an upstream that always times out. -/
theorem dispatch_transient_exhausts_attempts_witness :
    dispatch ⟨0, none⟩ 3 (fun _ => .transient .NetworkTimeout)
      = (.transientExhausted, 3, ⟨0, none⟩) :=
  dispatch_transient_exhausts_attempts ⟨0, none⟩ _
    (fun _ => ⟨.NetworkTimeout, rfl⟩) rfl

/-- Claim C4: when a configured credit budget is already fully consumed,
the Dispatcher rejects a new request with BudgetExceeded before any
network call: the Transport Client is invoked zero times and the Credit
Ledger is unchanged. -/
theorem dispatch_budget_exceeded_preflight (L : CreditLedger) (c : Nat)
    (maxAttempts : Nat) (upstream : Nat → UpstreamResponse)
    (hceil : L.ceiling = some c) (hfull : c ≤ L.consumed) :
    dispatch L maxAttempts upstream = (.budgetExceeded, 0, L) := by
  have hb : budgetExhausted L = true := by
    simp [budgetExhausted, hceil, hfull]
  simp [dispatch, hb]

/-- Witness for claim C4 at a concrete input: a budget of 100 units fully
consumed. -/
theorem dispatch_budget_exceeded_preflight_witness :
    dispatch ⟨100, some 100⟩ 3 (fun _ => .success 1)
      = (.budgetExceeded, 0, ⟨100, some 100⟩) :=
  dispatch_budget_exceeded_preflight ⟨100, some 100⟩ 100 3 _ rfl (by decide)

lemma ledgerStates_chain (init : Nat) (calls : List Nat) :
    List.Chain' (· ≤ ·) (ledgerStates init calls) := by
  unfold ledgerStates
  induction calls generalizing init with
  | nil => simp
  | cons a rest ih =>
      rw [List.scanl_cons]
      refine List.chain'_cons'.mpr ⟨?_, ih (recordUsage init a)⟩
      intro y hy
      cases rest with
      | nil => simp [List.scanl] at hy; subst hy; exact Nat.le_add_right init a
      | cons b tl =>
          rw [List.scanl_cons] at hy
          simp at hy
          subst hy
          exact Nat.le_add_right init a

lemma ledgerFinal_eq_sum (init : Nat) (calls : List Nat) :
    ledgerFinal init calls = init + calls.sum := by
  unfold ledgerFinal
  induction calls generalizing init with
  | nil => simp
  | cons a rest ih =>
      rw [List.foldl_cons, ih]
      simp [recordUsage, List.sum_cons]
      omega

/-- Claim C3: across any interleaving (permutation) of a collection of
recordUsage calls, the consumed-units counter is monotonically
non-decreasing over time, and its final value is the initial value plus
the sum of all recorded usages. -/
theorem creditLedger_monotone_and_sum (init : Nat) (calls order : List Nat)
    (hperm : order.Perm calls) :
    List.Chain' (· ≤ ·) (ledgerStates init order) ∧
      ledgerFinal init order = init + calls.sum := by
  refine ⟨ledgerStates_chain init order, ?_⟩
  rw [ledgerFinal_eq_sum, hperm.sum_eq]

/-- Witness for claim C3 at a concrete input: the calls 1 and 2 recorded
in the opposite order. -/
theorem creditLedger_monotone_and_sum_witness :
    List.Chain' (· ≤ ·) (ledgerStates 0 [2, 1]) ∧
      ledgerFinal 0 [2, 1] = 0 + [1, 2].sum :=
  creditLedger_monotone_and_sum 0 [1, 2] [2, 1] (by decide)

/-- Modelled from the spec: the Backoff Policy configuration, absent from
src/: base delay, maximum delay cap and maximum attempt count. -/
structure BackoffConfig where
  baseDelay : Nat
  maxDelay : Nat
  maxAttempts : Nat

/-- Modelled from the spec: the deterministic core of the Backoff Policy,
absent from src/: base delay times two to the attempt, capped at the
maximum delay. -/
def computedDelay (cfg : BackoffConfig) (attempt : Nat) : Nat :=
  min (cfg.baseDelay * 2 ^ attempt) cfg.maxDelay

/-- Largest jitter magnitude the policy can add: half of the largest
computed delay (jitter is up to fifty percent of the computed delay). -/
def maxJitter (cfg : BackoffConfig) : Nat := cfg.maxDelay / 2

/-- Modelled from the spec: nextDelay of the Backoff Policy, absent from
src/.  The randomized jitter sample is passed as an explicit signed offset
added to the computed delay; the error class does not change the delay
formula. -/
def nextDelay (cfg : BackoffConfig) (attempt : Nat) (e : ErrorClass)
    (jitter : Int) : Nat :=
  ((computedDelay cfg attempt : Int) + jitter).toNat

lemma computedDelay_mono (cfg : BackoffConfig) {a1 a2 : Nat} (h : a1 ≤ a2) :
    computedDelay cfg a1 ≤ computedDelay cfg a2 := by
  unfold computedDelay
  exact min_le_min (Nat.mul_le_mul_left _ (Nat.pow_le_pow_right (by omega) h)) le_rfl

/-- Claim C5: for attempt counts a1 less than a2 below the configured
attempt cap and any error class, with the same jitter sample the delay at
a1 is at most the delay at a2; and whenever the jitter sample is within
fifty percent of the computed delay, the returned delay never exceeds the
configured maximum delay plus the maximum jitter. -/
theorem backoff_monotone_and_bounded :
    (∀ (cfg : BackoffConfig) (a1 a2 : Nat) (e : ErrorClass) (j : Int),
        a1 < a2 → a2 < cfg.maxAttempts →
        nextDelay cfg a1 e j ≤ nextDelay cfg a2 e j) ∧
    (∀ (cfg : BackoffConfig) (a : Nat) (e : ErrorClass) (j : Int),
        j.natAbs * 2 ≤ computedDelay cfg a →
        nextDelay cfg a e j ≤ cfg.maxDelay + maxJitter cfg) := by
  constructor
  · intro cfg a1 a2 e j h12 hcap
    unfold nextDelay
    have hmono := computedDelay_mono cfg (Nat.le_of_lt h12)
    exact Int.toNat_le_toNat (by exact_mod_cast add_le_add_right (by exact_mod_cast hmono) j)
  · intro cfg a e j hj
    unfold nextDelay
    have h1 : ((computedDelay cfg a : Int) + j).toNat ≤ computedDelay cfg a + j.natAbs := by
      have : (computedDelay cfg a : Int) + j ≤ (computedDelay cfg a : Int) + j.natAbs := by
        exact add_le_add_left (Int.le_natAbs) _
      calc ((computedDelay cfg a : Int) + j).toNat
          ≤ ((computedDelay cfg a : Int) + (j.natAbs : Int)).toNat := Int.toNat_le_toNat this
        _ = computedDelay cfg a + j.natAbs := by
            rw [show ((computedDelay cfg a : Int) + (j.natAbs : Int)) = ((computedDelay cfg a + j.natAbs : Nat) : Int) by push_cast; ring]
            exact Int.toNat_natCast _
    have h2 : computedDelay cfg a ≤ cfg.maxDelay := min_le_right _ _
    have h3 : j.natAbs ≤ maxJitter cfg := by
      unfold maxJitter
      have : j.natAbs ≤ computedDelay cfg a / 2 := by omega
      exact le_trans this (Nat.div_le_div_right h2)
    omega

/-- Witness for claim C5 at a concrete configuration, attempts 0 and 1,
and jitter samples of magnitude 50. -/
theorem backoff_monotone_and_bounded_witness :
    nextDelay ⟨100, 1000, 5⟩ 0 .Unknown 50 ≤ nextDelay ⟨100, 1000, 5⟩ 1 .Unknown 50 ∧
    nextDelay ⟨100, 1000, 5⟩ 0 .Unknown (-50) ≤ 1000 + maxJitter ⟨100, 1000, 5⟩ :=
  ⟨backoff_monotone_and_bounded.1 ⟨100, 1000, 5⟩ 0 1 .Unknown 50 (by decide) (by decide),
   backoff_monotone_and_bounded.2 ⟨100, 1000, 5⟩ 0 .Unknown (-50) (by decide)⟩

/-- Status of an asynchronous job, from the Job Record data model. -/
inductive JobStatus where
  | Pending
  | Processing
  | Completed
  | Failed
deriving DecidableEq

/-- Modelled from the spec: the Job Record, absent from src/: identifier,
submission timestamp, current status, last-polled timestamp, accumulated
result fragments, and error detail when failed. -/
structure JobRecord where
  jobId : String
  submittedAt : Nat
  status : JobStatus
  lastPolled : Nat
  fragments : List String
  errorDetail : Option String

/-- Outcome of a Job Tracker lookup: the record, or NotFound. -/
inductive LookupOutcome where
  | found (r : JobRecord)
  | NotFound

/-- Modelled from the spec: the Job Tracker get operation, absent from
src/.  The tracker is the in-process map from job identifiers to records;
get finds the record for an identifier or reports NotFound. -/
def getJob (tracker : List (String × JobRecord)) (id : String) : LookupOutcome :=
  match tracker.lookup id with
  | some r => .found r
  | none => .NotFound

/-- Modelled from the spec: the Job Tracker create operation, absent from
src/: registers a fresh Pending record for a newly submitted job. -/
def createJob (tracker : List (String × JobRecord)) (id : String) (now : Nat) :
    List (String × JobRecord) :=
  (id, ⟨id, now, .Pending, now, [], none⟩) :: tracker

lemma lookup_eq_none_of_keys_ne {β : Type} (l : List (String × β)) (id : String)
    (h : ∀ e ∈ l, e.1 ≠ id) : l.lookup id = none := by
  simp only [List.lookup_eq_none_iff]
  intro a hab
  simp only [bne_iff_ne]
  exact (h a hab).symm

/-- Claim C6: looking up a job identifier not present in the Job Tracker
yields the NotFound outcome; it is an ordinary total function that never
returns a record for an unknown identifier. -/
theorem jobTracker_get_unknown_notFound (tracker : List (String × JobRecord))
    (id : String) (h : ∀ e ∈ tracker, e.1 ≠ id) :
    getJob tracker id = .NotFound := by
  unfold getJob
  rw [lookup_eq_none_of_keys_ne tracker id h]

/-- Witness for claim C6 at a concrete input: a tracker holding only job
J1, queried for J2. -/
theorem jobTracker_get_unknown_notFound_witness :
    getJob [("J1", ⟨"J1", 0, .Completed, 5, [], none⟩)] "J2" = .NotFound :=
  jobTracker_get_unknown_notFound _ "J2" (by
    intro e he
    simp only [List.mem_singleton] at he
    rw [he]
    decide)

/-- Modelled from the spec: Rate Limiter configuration, absent from src/:
a requests-per-interval ceiling and the interval length. -/
structure RLConfig where
  ceiling : Nat
  interval : Nat

/-- Modelled from the spec: Rate Limiter state, absent from src/: current
token count and the timestamp of the last refill. -/
structure RLState where
  tokens : Nat
  lastRefill : Nat

/-- Modelled from the spec: lazy token-bucket refill, absent from src/:
tokens accrued from the elapsed time since the last refill at the rate of
one ceiling per interval, capped at the bucket capacity (the ceiling). -/
def refillTokens (cfg : RLConfig) (s : RLState) (now : Nat) : Nat :=
  min cfg.ceiling (s.tokens + (now - s.lastRefill) * cfg.ceiling / cfg.interval)

/-- Modelled from the spec: the admission check of the Rate Limiter,
absent from src/: refill lazily, then deduct one token and admit when a
token exists, otherwise refuse (the caller waits). -/
def admitOne (cfg : RLConfig) (s : RLState) (now : Nat) : RLState × Bool :=
  let t := refillTokens cfg s now
  if 0 < t then (⟨t - 1, now⟩, true) else (⟨t, now⟩, false)

/-- Admission log of a sequence of admission checks at the given times. -/
def runLimiter (cfg : RLConfig) (s : RLState) : List Nat → List (Nat × Bool)
  | [] => []
  | now :: rest =>
      let p := admitOne cfg s now
      (now, p.2) :: runLimiter cfg p.1 rest

/-- Number of admissions the log records inside the window from lo
inclusive to hi exclusive. -/
def admittedInWindow (log : List (Nat × Bool)) (lo hi : Nat) : Nat :=
  log.countP (fun e => e.2 && decide (lo ≤ e.1) && decide (e.1 < hi))

lemma admitOne_spec (cfg : RLConfig) (s : RLState) (now : Nat) :
    admitOne cfg s now
      = if 0 < refillTokens cfg s now
          then (⟨refillTokens cfg s now - 1, now⟩, true)
          else (⟨refillTokens cfg s now, now⟩, false) := rfl

lemma runLimiter_cons (cfg : RLConfig) (s : RLState) (t : Nat) (rest : List Nat) :
    runLimiter cfg s (t :: rest)
      = (t, (admitOne cfg s t).2) :: runLimiter cfg (admitOne cfg s t).1 rest := rfl

lemma admittedInWindow_cons (e : Nat × Bool) (log : List (Nat × Bool)) (lo hi : Nat) :
    admittedInWindow (e :: log) lo hi
      = admittedInWindow log lo hi
        + (if e.2 && decide (lo ≤ e.1) && decide (e.1 < hi) then 1 else 0) := by
  unfold admittedInWindow
  rw [List.countP_cons]

/-- Counterexample C2: ceiling 2 per interval 2, an empty bucket at time 0,
checks at times 2, 2 and 3: all three are admitted, and all three fall in
the window from 2 to 4 of one interval length, exceeding the ceiling. -/
theorem rateLimiter_rolling_window_ceiling_cex :
    runLimiter ⟨2, 2⟩ ⟨0, 0⟩ [2, 2, 3]
        = [(2, true), (2, true), (3, true)] ∧
      2 < admittedInWindow (runLimiter ⟨2, 2⟩ ⟨0, 0⟩ [2, 2, 3]) 2 4 := by
  constructor
  · rfl
  · decide

lemma div_add_div_le (a b n : Nat) (hn : 0 < n) : a / n + b / n ≤ (a + b) / n := by
  rw [Nat.le_div_iff_mul_le hn]
  calc (a / n + b / n) * n = a / n * n + b / n * n := by ring
    _ ≤ a + b := Nat.add_le_add (Nat.div_mul_le_self a n) (Nat.div_mul_le_self b n)

lemma admittedInWindow_zero_of_high (cfg : RLConfig) (lo hi : Nat) :
    ∀ (ts : List Nat) (s : RLState), (∀ x ∈ ts, hi ≤ x) →
      admittedInWindow (runLimiter cfg s ts) lo hi = 0 := by
  intro ts
  induction ts with
  | nil => intro s _; rfl
  | cons t rest ih =>
      intro s hall
      have ht : hi ≤ t := hall t (List.mem_cons_self t rest)
      have hnot : ¬ (t < hi) := by omega
      rw [runLimiter_cons, admittedInWindow_cons]
      have hc : ((admitOne cfg s t).2 && decide (lo ≤ (t : Nat)) && decide (t < hi))
          = false := by simp [hnot]
      dsimp only
      rw [hc]
      simp only [Bool.false_eq_true, if_false, Nat.add_zero]
      exact ih _ (fun x hx => hall x (List.mem_cons_of_mem t hx))

lemma admitted_le_inside (cfg : RLConfig) (hI : 0 < cfg.interval) (lo hi : Nat) :
    ∀ (ts : List Nat) (s : RLState), ts.Pairwise (· ≤ ·) →
      (∀ x ∈ ts, s.lastRefill ≤ x) → lo ≤ s.lastRefill →
      admittedInWindow (runLimiter cfg s ts) lo hi ≤
        s.tokens + (hi - 1 - s.lastRefill) * cfg.ceiling / cfg.interval := by
  intro ts
  induction ts with
  | nil => intro s _ _ _; exact Nat.zero_le _
  | cons t rest ih =>
      intro s hpw hall hlo
      have hpt : s.lastRefill ≤ t := hall t (List.mem_cons_self t rest)
      obtain ⟨hhead, htail⟩ := List.pairwise_cons.mp hpw
      rw [runLimiter_cons, admittedInWindow_cons]
      dsimp only
      by_cases hth : t < hi
      · have hlot : lo ≤ t := le_trans hlo hpt
        have hrle : refillTokens cfg s t
            ≤ s.tokens + (t - s.lastRefill) * cfg.ceiling / cfg.interval :=
          min_le_right _ _
        have harith : (t - s.lastRefill) * cfg.ceiling / cfg.interval
            + (hi - 1 - t) * cfg.ceiling / cfg.interval
            ≤ (hi - 1 - s.lastRefill) * cfg.ceiling / cfg.interval := by
          have hsum : (t - s.lastRefill) * cfg.ceiling + (hi - 1 - t) * cfg.ceiling
              = (hi - 1 - s.lastRefill) * cfg.ceiling := by
            rw [← Nat.add_mul]
            congr 1
            omega
          calc (t - s.lastRefill) * cfg.ceiling / cfg.interval
                + (hi - 1 - t) * cfg.ceiling / cfg.interval
              ≤ ((t - s.lastRefill) * cfg.ceiling + (hi - 1 - t) * cfg.ceiling)
                  / cfg.interval := div_add_div_le _ _ _ hI
            _ = (hi - 1 - s.lastRefill) * cfg.ceiling / cfg.interval := by rw [hsum]
        by_cases hpos : 0 < refillTokens cfg s t
        · rw [admitOne_spec, if_pos hpos]
          dsimp only
          have htl := ih ⟨refillTokens cfg s t - 1, t⟩ htail
            (fun x hx => hhead x hx) hlot
          dsimp only at htl
          have hc : (true && decide (lo ≤ t) && decide (t < hi)) = true := by
            simp [hlot, hth]
          rw [hc, if_pos rfl]
          omega
        · rw [admitOne_spec, if_neg hpos]
          dsimp only
          have htl := ih ⟨refillTokens cfg s t, t⟩ htail
            (fun x hx => hhead x hx) hlot
          dsimp only at htl
          simp only [Bool.false_and, Bool.false_eq_true, if_false, Nat.add_zero]
          omega
      · have hc : ((admitOne cfg s t).2 && decide (lo ≤ t) && decide (t < hi))
            = false := by simp [hth]
        rw [hc]
        simp only [Bool.false_eq_true, if_false, Nat.add_zero]
        have hz := admittedInWindow_zero_of_high cfg lo hi rest (admitOne cfg s t).1
          (fun x hx => le_trans (by omega) (hhead x hx))
        rw [hz]
        exact Nat.zero_le _

/-- Claim C2 as amended: for every monotone sequence of admission checks,
the token-bucket Rate Limiter admits at most twice the configured ceiling
within any rolling window of the configured interval length (the burst
capacity of the bucket plus the tokens refilled during the window); the
ceiling alone can be exceeded, as the counterexample shows. -/
theorem rateLimiter_rolling_window_twice_ceiling (cfg : RLConfig) (s : RLState)
    (ts : List Nat) (lo : Nat) (hI : 0 < cfg.interval)
    (hcap : s.tokens ≤ cfg.ceiling) (hsorted : ts.Pairwise (· ≤ ·)) :
    admittedInWindow (runLimiter cfg s ts) lo (lo + cfg.interval) ≤ 2 * cfg.ceiling := by
  induction ts generalizing s with
  | nil => exact Nat.zero_le _
  | cons t rest ih =>
      obtain ⟨hhead, htail⟩ := List.pairwise_cons.mp hsorted
      have hrcap : refillTokens cfg s t ≤ cfg.ceiling := min_le_left _ _
      rw [runLimiter_cons, admittedInWindow_cons]
      dsimp only
      by_cases hge : lo ≤ t
      · by_cases hin : t < lo + cfg.interval
        · have hbound2 : (lo + cfg.interval - 1 - t) * cfg.ceiling / cfg.interval
              ≤ cfg.ceiling := by
            have h1 : (lo + cfg.interval - 1 - t) * cfg.ceiling
                ≤ cfg.interval * cfg.ceiling := by
              apply Nat.mul_le_mul_right
              omega
            calc (lo + cfg.interval - 1 - t) * cfg.ceiling / cfg.interval
                ≤ cfg.interval * cfg.ceiling / cfg.interval := Nat.div_le_div_right h1
              _ = cfg.ceiling := Nat.mul_div_cancel_left _ hI
          by_cases hpos : 0 < refillTokens cfg s t
          · rw [admitOne_spec, if_pos hpos]
            dsimp only
            have htl := admitted_le_inside cfg hI lo (lo + cfg.interval) rest
              ⟨refillTokens cfg s t - 1, t⟩ htail (fun x hx => hhead x hx) hge
            dsimp only at htl
            have hc : (true && decide (lo ≤ t) && decide (t < lo + cfg.interval))
                = true := by simp [hge, hin]
            rw [hc, if_pos rfl]
            omega
          · rw [admitOne_spec, if_neg hpos]
            dsimp only
            have htl := admitted_le_inside cfg hI lo (lo + cfg.interval) rest
              ⟨refillTokens cfg s t, t⟩ htail (fun x hx => hhead x hx) hge
            dsimp only at htl
            simp only [Bool.false_and, Bool.false_eq_true, if_false, Nat.add_zero]
            omega
        · have hc : ((admitOne cfg s t).2 && decide (lo ≤ t)
              && decide (t < lo + cfg.interval)) = false := by simp [hin]
          rw [hc]
          simp only [Bool.false_eq_true, if_false, Nat.add_zero]
          have hz := admittedInWindow_zero_of_high cfg lo (lo + cfg.interval) rest
            (admitOne cfg s t).1 (fun x hx => le_trans (by omega) (hhead x hx))
          omega
      · have hc : ((admitOne cfg s t).2 && decide (lo ≤ t)
            && decide (t < lo + cfg.interval)) = false := by simp [hge]
        rw [hc]
        simp only [Bool.false_eq_true, if_false, Nat.add_zero]
        by_cases hpos : 0 < refillTokens cfg s t
        · rw [admitOne_spec, if_pos hpos]
          dsimp only
          exact ih ⟨refillTokens cfg s t - 1, t⟩ (by dsimp only; omega) htail
        · rw [admitOne_spec, if_neg hpos]
          dsimp only
          exact ih ⟨refillTokens cfg s t, t⟩ (by dsimp only; omega) htail

/-- Witness for the amended claim C2 at a concrete input: the
counterexample run stays within twice the ceiling. -/
theorem rateLimiter_rolling_window_twice_ceiling_witness :
    admittedInWindow (runLimiter ⟨2, 2⟩ ⟨0, 0⟩ [2, 2, 3]) 2 (2 + 2) ≤ 2 * 2 :=
  rateLimiter_rolling_window_twice_ceiling ⟨2, 2⟩ ⟨0, 0⟩ [2, 2, 3] 2
    (by decide) (by decide) (by decide)
